import Mathlib

/- Shallow embedding of the synchronization core of the media player in
   src/src/main.rs: the Audio Ring Buffer + Audio Clock (`AudioPlayer`),
   the Video Pacer (`Decoder.should_display_frame`), the decode-drain
   helper (`receive_frame_yuv`), and the per-packet dispatch of the
   Playback Loop (`main`'s video and audio branches).

   Modelling conventions:
   - `Instant` and `Dur` are `Nat` (nanoseconds); Rust's `Instant + Duration`
     is `Nat` addition and `duration_since` Nat subtraction (only used when
     the order is known).
   - `f32` sample values and `f64` seconds are carried opaquely; no float
     arithmetic is performed on samples, and the only clock arithmetic is
     `pts * time_base`, modelled over `ℚ`.
   - A function that sleeps returns, besides its result, the `Instant` at
     which it returns (`now` when it does not sleep).
   - `Option.unwrap` on a `None` (a Rust panic) is modelled as the `none`
     result of an `Option`-returning embedding.
   - The lock on the audio state is modelled as always acquired: the
     embedding is the sequential semantics of the single playback thread.
-/

namespace RustMedia

abbrev Instant := Nat
abbrev Dur := Nat
abbrev Sample := ℚ

def AUDIO_BUFFER_SIZE : Nat := 16384

/-- The `AudioState` struct: the Audio Clock scalar (`current_time`,
seconds, modelled over `ℚ`). -/
structure AudioState where
  current_time : ℚ
  deriving DecidableEq

/-- The `AudioPlayer` struct: ring buffer of interleaved samples, channel
count, stream time base, shared clock state, sample rate. -/
structure AudioPlayer where
  buffer : List Sample
  channels : Nat
  time_base : ℚ
  state : AudioState
  sample_rate : Int
  deriving DecidableEq

/-- Ring-buffer capacity in samples: `AUDIO_BUFFER_SIZE * channels`. -/
def AudioPlayer.capacity (p : AudioPlayer) : Nat :=
  AUDIO_BUFFER_SIZE * p.channels

/-- `AudioPlayer::new`. -/
def AudioPlayer.new (channels : Nat) (time_base : ℚ) (sample_rate : Int) :
    AudioPlayer :=
  { buffer := []
    channels := channels
    time_base := time_base
    state := { current_time := 0 }
    sample_rate := sample_rate }

/-- `AudioPlayer::add_samples`: set the Audio Clock to `pts * time_base`,
then append at most `capacity - len` input samples, each push guarded by
the capacity check of the source loop. -/
def AudioPlayer.add_samples (p : AudioPlayer) (samples : List Sample)
    (pts : Int) : AudioPlayer :=
  let current_time : ℚ := (pts : ℚ) * p.time_base
  let p1 := { p with state := { current_time := current_time } }
  let buffer_space := AUDIO_BUFFER_SIZE * p1.channels - p1.buffer.length
  let samples_to_add := min samples.length buffer_space
  let buf := (samples.take samples_to_add).foldl
    (fun b s =>
      if b.length < AUDIO_BUFFER_SIZE * p1.channels then b ++ [s] else b)
    p1.buffer
  { p1 with buffer := buf }

/-- `AudioCallback::callback` for `AudioPlayer`: fill `n` output slots in
order, popping the oldest buffered sample when available and emitting
silence (`0.0`) otherwise. Total: it never blocks and never fails. -/
def AudioPlayer.callback : AudioPlayer → Nat → AudioPlayer × List Sample
  | p, 0 => (p, [])
  | p, n + 1 =>
    match p.buffer with
    | [] =>
      let r := AudioPlayer.callback p n
      (r.1, 0 :: r.2)
    | s :: rest =>
      let r := AudioPlayer.callback { p with buffer := rest } n
      (r.1, s :: r.2)

/-- ffmpeg error values as matched by the source: `Error::Other { errno }`
with the distinguished `EAGAIN` errno, and any other error shape. -/
inductive FfError where
  | other (errno : Int)
  | misc (tag : Nat)
  deriving DecidableEq

def EAGAIN : Int := 11

/-- Decoded video frames are carried opaquely. -/
abbrev Frame := Nat

instance : DecidableEq (Except FfError Frame) := fun a b =>
  match a, b with
  | .ok x, .ok y => decidable_of_iff (x = y) (by simp)
  | .error e, .error f => decidable_of_iff (e = f) (by simp)
  | .ok _, .error _ => isFalse (by simp)
  | .error _, .ok _ => isFalse (by simp)

/-- The external video codec handle (`self.decoder`): the outcomes its
`receive_frame` will deliver next, in order; an empty queue means the
codec reports `EAGAIN` (no output available yet). -/
structure VideoCodec where
  pending : List (Except FfError Frame)
  deriving DecidableEq

/-- `self.decoder.receive_frame(frame)`: deliver the next queued outcome,
or `Err(Error::Other { errno: EAGAIN })` when nothing is pending. -/
def VideoCodec.receive_frame (c : VideoCodec) :
    VideoCodec × Except FfError Frame :=
  match c.pending with
  | [] => (c, .error (.other EAGAIN))
  | r :: rest => ({ pending := rest }, r)

/-- The result mapping of `Decoder::receive_frame_yuv` applied to one
`receive_frame` outcome: on success run the scaler (`convert`) and report
`Ok(true)` (here `.ok (some yuv)`, keeping the converted frame); on
`Err(Error::Other { errno: EAGAIN })` report `Ok(false)` (here
`.ok none`); propagate every other error. -/
def yuv_result (convert : Frame → Except FfError Frame)
    (r : Except FfError Frame) : Except FfError (Option Frame) :=
  match r with
  | .ok f =>
    match convert f with
    | .ok g => .ok (some g)
    | .error e => .error e
  | .error (.other errno) =>
    if errno = EAGAIN then .ok none else .error (.other errno)
  | .error e => .error e

/-- `Decoder::receive_frame_yuv`: one `receive_frame` attempt followed by
the scaler, with the source's error mapping. -/
def receive_frame_yuv (convert : Frame → Except FfError Frame)
    (c : VideoCodec) : VideoCodec × Except FfError (Option Frame) :=
  let rc := c.receive_frame
  (rc.1, yuv_result convert rc.2)

/-- The Video Pacer state: the `Decoder` struct minus its external
`decoder` and `scaler` handles (modelled separately). -/
structure Decoder where
  time_base : ℚ
  frame_rate : ℚ
  start_time : Option Instant
  frame_duration : Dur
  frame_count : Nat
  last_frame_time : Option Instant
  next_frame_target : Option Instant
  total_drift : Dur
  deriving DecidableEq

/-- `Decoder::should_display_frame`. Returns `(display, new_state, ret)`
where `ret` is the instant at which the call returns (after the early
branch's sleep, `ret` is the target instant; otherwise `ret = now`).
A `none` result is the panic of `next_frame_target.unwrap()` on a state
where `start_time` is set but `next_frame_target` is not (unreachable
from the constructor). The diagnostic computations (`video_time`,
`elapsed`, `frame_interval`, the 30-frame log) have no effect on state or
result and are not modelled. -/
def Decoder.should_display_frame (d : Decoder) (_pts : Int) (now : Instant) :
    Option (Bool × Decoder × Instant) :=
  match d.start_time with
  | none =>
    some (true,
      { d with
          start_time := some now
          last_frame_time := some now
          next_frame_target := some (now + d.frame_duration) },
      now)
  | some _ =>
    match d.next_frame_target with
    | none => none
    | some target_time =>
      if now < target_time then
        some (false, d, target_time)
      else
        some (true,
          { d with
              frame_count := d.frame_count + 1
              last_frame_time := some now
              next_frame_target := some (target_time + d.frame_duration) },
          now)

/-- A demuxed video packet: its PTS (possibly absent) and the decode
outcomes the external codec will produce for it. -/
structure Packet where
  pts : Option Int
  frames : List (Except FfError Frame)
  deriving DecidableEq

/-- `self.decoder.send_packet(&packet)`: the codec queues the packet's
decode outcomes after whatever is already pending. -/
def VideoCodec.send_packet (c : VideoCodec) (pkt : Packet) : VideoCodec :=
  { pending := c.pending ++ pkt.frames }

/-- The video branch of the Playback Loop for one packet:
`packet.pts().unwrap_or(0)`; `send_packet`; a single
`if receive_frame_yuv(..)` drain; on a frame, `should_display_frame` and,
if it says display, presentation of the converted frame. Result: `none`
for the pacer's panic case, `.error e` for a fatal `?` propagation, and
otherwise the new codec state, new pacer state, the list of frames handed
to the presentation provider, and the instant the iteration step ends. -/
def process_video_packet (convert : Frame → Except FfError Frame)
    (c : VideoCodec) (d : Decoder) (now : Instant) (pkt : Packet) :
    Option (Except FfError (VideoCodec × Decoder × List Frame × Instant)) :=
  let packet_pts := pkt.pts.getD 0
  let c1 := c.send_packet pkt
  let rc := receive_frame_yuv convert c1
  match rc.2 with
  | .error e => some (.error e)
  | .ok none => some (.ok (rc.1, d, [], now))
  | .ok (some f) =>
    match d.should_display_frame packet_pts now with
    | none => none
    | some (disp, d1, ret) =>
      some (.ok (rc.1, d1, if disp then [f] else [], ret))

/-- The external audio codec handle: the sample planes its
`receive_frame` will deliver next; an empty queue makes `receive_frame`
return an error, ending the drain loop. -/
structure AudioCodec where
  pending : List (List Sample)
  deriving DecidableEq

/-- The `while audio_dec.receive_frame(..).is_ok()` drain loop body:
for each received frame, `add_samples(plane0, pts)`. -/
def drain_audio_frames : List (List Sample) → AudioPlayer → Int →
    AudioPlayer
  | [], p, _pts => p
  | samples :: rest, p, pts =>
    drain_audio_frames rest (p.add_samples samples pts) pts

/-- The audio branch of the Playback Loop for one packet: `send_packet`,
then drain every available frame, enqueueing each with
`packet.pts().unwrap_or(0)`. -/
def process_audio_packet (c : AudioCodec) (p : AudioPlayer)
    (pkt_pts : Option Int) (pkt_frames : List (List Sample)) :
    AudioCodec × AudioPlayer :=
  let queued := c.pending ++ pkt_frames
  ({ pending := [] }, drain_audio_frames queued p (pkt_pts.getD 0))

/-- Back-to-back pacer calls: each call's `now` is the instant the
previous call returned; records `next_frame_target` after each call. -/
def pacer_run : Decoder → Instant → List Int →
    Option (Decoder × Instant × List (Option Instant))
  | d, now, [] => some (d, now, [])
  | d, now, pts :: rest =>
    match d.should_display_frame pts now with
    | none => none
    | some (_, d1, ret) =>
      match pacer_run d1 ret rest with
      | none => none
      | some (df, retf, targets) =>
        some (df, retf, d1.next_frame_target :: targets)

/- Helper lemmas shared by the claim theorems. -/

/-- The guarded push loop of `add_samples` is a plain append whenever the
pushed list fits under the capacity. -/
theorem foldl_push_of_le (cap : Nat) (l : List Sample) :
    ∀ buf : List Sample, buf.length + l.length ≤ cap →
      l.foldl (fun b s => if b.length < cap then b ++ [s] else b) buf =
        buf ++ l := by
  induction l with
  | nil => intro buf _; simp
  | cons s rest ih =>
    intro buf h
    simp only [List.foldl_cons, List.length_cons] at *
    rw [if_pos (by omega), ih (buf ++ [s]) (by simp; omega)]
    simp

theorem add_samples_buffer (p : AudioPlayer) (samples : List Sample)
    (pts : Int) (h : p.buffer.length ≤ AUDIO_BUFFER_SIZE * p.channels) :
    (p.add_samples samples pts).buffer =
      p.buffer ++ samples.take (min samples.length
        (AUDIO_BUFFER_SIZE * p.channels - p.buffer.length)) := by
  unfold AudioPlayer.add_samples
  simp only
  rw [foldl_push_of_le]
  rw [List.length_take]
  omega

theorem add_samples_clock (p : AudioPlayer) (samples : List Sample)
    (pts : Int) :
    (p.add_samples samples pts).state.current_time =
      (pts : ℚ) * p.time_base := rfl

theorem add_samples_fields (p : AudioPlayer) (samples : List Sample)
    (pts : Int) :
    (p.add_samples samples pts).channels = p.channels ∧
      (p.add_samples samples pts).time_base = p.time_base ∧
      (p.add_samples samples pts).sample_rate = p.sample_rate :=
  ⟨rfl, rfl, rfl⟩

theorem callback_out (n : Nat) : ∀ p : AudioPlayer,
    (p.callback n).2 =
      p.buffer.take n ++ List.replicate (n - p.buffer.length) 0 := by
  induction n with
  | zero => intro p; simp [AudioPlayer.callback]
  | succ n ih =>
    intro p
    obtain ⟨buf, ch, tb, st, sr⟩ := p
    cases buf with
    | nil => simp [AudioPlayer.callback, ih, List.replicate_succ]
    | cons s rest => simp [AudioPlayer.callback, ih, Nat.succ_sub_succ]

theorem callback_player (n : Nat) : ∀ p : AudioPlayer,
    (p.callback n).1 = { p with buffer := p.buffer.drop n } := by
  induction n with
  | zero => intro p; simp [AudioPlayer.callback]
  | succ n ih =>
    intro p
    obtain ⟨buf, ch, tb, st, sr⟩ := p
    cases buf with
    | nil => simp [AudioPlayer.callback, ih]
    | cons s rest => simp [AudioPlayer.callback, ih]

/-- Reachable-pacer shape: once started, the next target is exactly
`start_time + (frame_count + 1) * frame_duration` — an exact multiple of
the frame duration from the session origin. -/
def pacer_on_target (d : Decoder) : Prop :=
  ∃ t0, d.start_time = some t0 ∧
    d.next_frame_target = some (t0 + (d.frame_count + 1) * d.frame_duration)

theorem should_display_frame_first (d : Decoder) (pts : Int) (now : Instant)
    (h : d.start_time = none) :
    d.should_display_frame pts now =
      some (true,
        { d with
            start_time := some now
            last_frame_time := some now
            next_frame_target := some (now + d.frame_duration) },
        now) := by
  unfold Decoder.should_display_frame
  rw [h]

theorem should_display_frame_early (d : Decoder) (pts : Int) (now : Instant)
    (t0 tgt : Instant) (hs : d.start_time = some t0)
    (ht : d.next_frame_target = some tgt) (hearly : now < tgt) :
    d.should_display_frame pts now = some (false, d, tgt) := by
  unfold Decoder.should_display_frame
  rw [hs, ht]
  simp [hearly]

theorem should_display_frame_due (d : Decoder) (pts : Int) (now : Instant)
    (t0 tgt : Instant) (hs : d.start_time = some t0)
    (ht : d.next_frame_target = some tgt) (hdue : ¬ now < tgt) :
    d.should_display_frame pts now =
      some (true,
        { d with
            frame_count := d.frame_count + 1
            last_frame_time := some now
            next_frame_target := some (tgt + d.frame_duration) },
        now) := by
  unfold Decoder.should_display_frame
  rw [hs, ht]
  simp [hdue]

/-- Claim C7: the very first `should_display_frame` call, for every PTS,
returns "display now" and sets `start_time = now`,
`last_frame_time = now`, `next_frame_target = now + frame_duration`,
returning at the call instant (no sleep). -/
theorem C7_first_call_always_displays (d : Decoder) (pts : Int)
    (now : Instant) (h : d.start_time = none) :
    d.should_display_frame pts now =
      some (true,
        { d with
            start_time := some now
            last_frame_time := some now
            next_frame_target := some (now + d.frame_duration) },
        now) :=
  should_display_frame_first d pts now h

/-- Witness for C7 at a concrete fresh pacer and PTS `-3`. -/
theorem C7_first_call_always_displays_witness :
    Decoder.should_display_frame ⟨1, 1, none, 2, 0, none, none, 0⟩ (-3) 5 =
      some (true, ⟨1, 1, some 5, 2, 0, some 5, some 7, 0⟩, 5) :=
  C7_first_call_always_displays ⟨1, 1, none, 2, 0, none, none, 0⟩ (-3) 5 rfl

/-- Claim C9: a non-first call that finds the frame early
(`now < next_frame_target`) returns "do not display" and leaves every
Pacer field — `start_time`, `frame_count`, `last_frame_time`,
`next_frame_target`, `total_drift` — unchanged. -/
theorem C9_early_call_state_unchanged (d : Decoder) (pts : Int)
    (now t0 tgt : Instant) (hs : d.start_time = some t0)
    (ht : d.next_frame_target = some tgt) (hearly : now < tgt) :
    ∃ d1 ret, d.should_display_frame pts now = some (false, d1, ret) ∧
      d1.start_time = d.start_time ∧
      d1.frame_count = d.frame_count ∧
      d1.last_frame_time = d.last_frame_time ∧
      d1.next_frame_target = d.next_frame_target ∧
      d1.total_drift = d.total_drift :=
  ⟨d, tgt, should_display_frame_early d pts now t0 tgt hs ht hearly,
    rfl, rfl, rfl, rfl, rfl⟩

/-- Witness for C9 at a concrete early call. -/
theorem C9_early_call_state_unchanged_witness :
    ∃ d1 ret,
      Decoder.should_display_frame ⟨1, 1, some 0, 2, 3, some 6, some 8, 0⟩
          11 7 = some (false, d1, ret) ∧
        d1.start_time = some 0 ∧
        d1.frame_count = 3 ∧
        d1.last_frame_time = some 6 ∧
        d1.next_frame_target = some 8 ∧
        d1.total_drift = 0 :=
  C9_early_call_state_unchanged ⟨1, 1, some 0, 2, 3, some 6, some 8, 0⟩
    11 7 0 8 rfl rfl (by decide)

/-- Claim C1 counterexample: a non-first call arriving before
`next_frame_target` (state started at 0, target 10, called at 4) returns
"do not display" — it does not "proceed to advance bookkeeping and return
display now", so not every non-first `evaluate` call results in the frame
being displayed. -/
theorem C1_counterexample :
    (Decoder.should_display_frame ⟨1, 1, some 0, 2, 0, some 0, some 10, 0⟩
        7 4).map (fun r => r.1) = some false ∧
      (Decoder.should_display_frame ⟨1, 1, some 0, 2, 0, some 0, some 10, 0⟩
        7 4).map (fun r => r.1) ≠ some true := by
  constructor
  · rfl
  · decide

/-- Claim C1 (amended): a non-first call that arrives early blocks until
`next_frame_target` (the call returns at exactly that instant) and then
returns "do not display" with the Pacer state unchanged; the frame is not
displayed. -/
theorem C1_early_call_blocks_then_skips (d : Decoder) (pts : Int)
    (now t0 tgt : Instant) (hs : d.start_time = some t0)
    (ht : d.next_frame_target = some tgt) (hearly : now < tgt) :
    d.should_display_frame pts now = some (false, d, tgt) :=
  should_display_frame_early d pts now t0 tgt hs ht hearly

/-- Witness for the amended C1 at a concrete early call. -/
theorem C1_early_call_blocks_then_skips_witness :
    Decoder.should_display_frame ⟨1, 1, some 0, 2, 0, some 0, some 10, 0⟩
        7 4 =
      some (false, ⟨1, 1, some 0, 2, 0, some 0, some 10, 0⟩, 10) :=
  C1_early_call_blocks_then_skips ⟨1, 1, some 0, 2, 0, some 0, some 10, 0⟩
    7 4 0 10 rfl rfl (by decide)

/-- Claim C3 counterexample: with `frame_duration = 2` and a pacer just
past its first call at origin 0 (`next_frame_target = 2`), three
back-to-back calls yield the target trace `[2, 4, 4]`: an early call
leaves the target unchanged, so the per-call trace is not
`origin + 1*d, origin + 2*d, origin + 3*d = [2, 4, 6]`. -/
theorem C3_counterexample :
    (pacer_run ⟨1, 1, some 0, 2, 0, some 0, some 2, 0⟩ 0 [0, 0, 0]).map
        (fun r => r.2.2) = some [some 2, some 4, some 4] ∧
      some [some 2, some 4, some 4] ≠
        some [some (0 + 1 * 2), some (0 + 2 * 2), some (0 + 3 * 2)] := by
  constructor
  · rfl
  · decide

/-- Claim C3 (amended): the target advances only on calls that find
`now ≥ next_frame_target`; such a call sets the new target to the
previous target plus `frame_duration` (never `now + frame_duration`),
an early call leaves the target unchanged, and consequently every
reachable pacer state keeps `next_frame_target` equal to
`start_time + (frame_count + 1) * frame_duration` — an exact multiple of
`frame_duration` from the session origin (the first call establishes
this, every later call preserves it). In the back-to-back regime the
early calls repeat the previous target rather than adding one more
multiple per call. -/
theorem C3_fixed_period_accumulation (d : Decoder) (pts : Int)
    (now : Instant) :
    (∀ t0 tgt, d.start_time = some t0 → d.next_frame_target = some tgt →
      ¬ now < tgt →
      (d.should_display_frame pts now).map
          (fun r => r.2.1.next_frame_target) =
        some (some (tgt + d.frame_duration))) ∧
    (∀ t0 tgt, d.start_time = some t0 → d.next_frame_target = some tgt →
      now < tgt →
      (d.should_display_frame pts now).map
          (fun r => r.2.1.next_frame_target) =
        some (some tgt)) ∧
    (d.start_time = none → d.frame_count = 0 →
      ∀ b d1 ret, d.should_display_frame pts now = some (b, d1, ret) →
        pacer_on_target d1) ∧
    (pacer_on_target d →
      ∀ b d1 ret, d.should_display_frame pts now = some (b, d1, ret) →
        pacer_on_target d1) := by
  refine ⟨?_, ?_, ?_, ?_⟩
  · intro t0 tgt hs ht hdue
    rw [should_display_frame_due d pts now t0 tgt hs ht hdue]
    rfl
  · intro t0 tgt hs ht hearly
    rw [should_display_frame_early d pts now t0 tgt hs ht hearly]
    simp [ht]
  · intro hs hc b d1 ret h
    rw [should_display_frame_first d pts now hs] at h
    injection h with h
    have hd1 : d1 =
        { d with
            start_time := some now
            last_frame_time := some now
            next_frame_target := some (now + d.frame_duration) } := by
      have := congrArg (fun x => x.2.1) h
      simpa using this.symm
    subst hd1
    exact ⟨now, rfl, by simp [hc]⟩
  · rintro ⟨t0, hs, ht⟩ b d1 ret h
    by_cases hearly : now < t0 + (d.frame_count + 1) * d.frame_duration
    · rw [should_display_frame_early d pts now t0 _ hs ht hearly] at h
      injection h with h
      have hd1 : d1 = d := by
        have := congrArg (fun x => x.2.1) h
        simpa using this.symm
      subst hd1
      exact ⟨t0, hs, ht⟩
    · rw [should_display_frame_due d pts now t0 _ hs ht hearly] at h
      injection h with h
      have hd1 : d1 =
          { d with
              frame_count := d.frame_count + 1
              last_frame_time := some now
              next_frame_target :=
                some (t0 + (d.frame_count + 1) * d.frame_duration +
                  d.frame_duration) } := by
        have := congrArg (fun x => x.2.1) h
        simpa using this.symm
      subst hd1
      refine ⟨t0, hs, ?_⟩
      simp
      ring

/-- Witness for the amended C3, exercising all four conjuncts at concrete
pacer states. -/
theorem C3_fixed_period_accumulation_witness :
    (Decoder.should_display_frame ⟨1, 1, some 0, 2, 1, some 2, some 4, 0⟩
        0 4).map (fun r => r.2.1.next_frame_target) = some (some 6) ∧
    (Decoder.should_display_frame ⟨1, 1, some 0, 2, 1, some 2, some 4, 0⟩
        0 3).map (fun r => r.2.1.next_frame_target) = some (some 4) ∧
    pacer_on_target ⟨1, 1, some 5, 2, 0, some 5, some 7, 0⟩ ∧
    pacer_on_target ⟨1, 1, some 0, 2, 1, some 2, some 4, 0⟩ := by
  refine ⟨?_, ?_, ?_, ?_⟩
  · exact (C3_fixed_period_accumulation
      ⟨1, 1, some 0, 2, 1, some 2, some 4, 0⟩ 0 4).1 0 4 rfl rfl (by decide)
  · exact (C3_fixed_period_accumulation
      ⟨1, 1, some 0, 2, 1, some 2, some 4, 0⟩ 0 3).2.1 0 4 rfl rfl
      (by decide)
  · exact (C3_fixed_period_accumulation
      ⟨1, 1, none, 2, 0, none, none, 0⟩ 0 5).2.2.1 rfl rfl true
      ⟨1, 1, some 5, 2, 0, some 5, some 7, 0⟩ 5 rfl
  · exact (C3_fixed_period_accumulation
      ⟨1, 1, some 0, 2, 1, some 2, some 4, 0⟩ 0 3).2.2.2 ⟨0, rfl, rfl⟩
      false ⟨1, 1, some 0, 2, 1, some 2, some 4, 0⟩ 4 rfl

/-- Claim C4: `add_samples` appends exactly
`min m (capacity - len)` samples — the first ones of the input, in
order — so a full buffer gains nothing and keeps length `capacity`, and
the Audio Clock is set to `pts * time_base` unconditionally. -/
theorem C4_add_samples_spec (p : AudioPlayer) (samples : List Sample)
    (pts : Int) (h : p.buffer.length ≤ p.capacity) :
    (p.add_samples samples pts).buffer =
      p.buffer ++ samples.take
        (min samples.length (p.capacity - p.buffer.length)) ∧
    (p.add_samples samples pts).buffer.length =
      p.buffer.length +
        min samples.length (p.capacity - p.buffer.length) ∧
    (p.buffer.length = p.capacity →
      (p.add_samples samples pts).buffer = p.buffer ∧
      (p.add_samples samples pts).buffer.length = p.capacity) ∧
    (p.add_samples samples pts).state.current_time =
      (pts : ℚ) * p.time_base := by
  have hb := add_samples_buffer p samples pts h
  have hcap : p.capacity = AUDIO_BUFFER_SIZE * p.channels := rfl
  refine ⟨by rw [hb, hcap], ?_, ?_, add_samples_clock p samples pts⟩
  · rw [hb, hcap]
    simp [List.length_take]
  · intro hfull
    have hz : AUDIO_BUFFER_SIZE * p.channels - p.buffer.length = 0 := by
      rw [hfull, hcap]
      omega
    constructor
    · rw [hb, hz]
      simp
    · rw [hb, hz]
      simp [hfull, hcap]

/-- Witness for C4 at a concrete player. -/
theorem C4_add_samples_spec_witness :
    (AudioPlayer.add_samples ⟨[1, 2, 3], 1, 1, ⟨0⟩, 44100⟩ [4, 5] 6).buffer
        = [1, 2, 3, 4, 5] ∧
      (AudioPlayer.add_samples ⟨[1, 2, 3], 1, 1, ⟨0⟩, 44100⟩ [4, 5]
          6).state.current_time = 6 := by
  have h := C4_add_samples_spec ⟨[1, 2, 3], 1, 1, ⟨0⟩, 44100⟩ [4, 5] 6
    (by decide)
  refine ⟨?_, ?_⟩
  · rw [h.1]
    rfl
  · rw [h.2.2.2]
    norm_num

/-- Claim C5: the device pull fills each of the `n` requested slots with
the oldest remaining buffered sample when one is available and `0.0`
otherwise — the output is the first `n` buffered samples in order padded
with zeros, always exactly `n` samples (in particular, `n` zeros from an
empty buffer); the buffer loses its first `n` samples. The model is a
total function: the pull never blocks and never fails. -/
theorem C5_callback_spec (p : AudioPlayer) (n : Nat) :
    (p.callback n).2 =
      p.buffer.take n ++ List.replicate (n - p.buffer.length) 0 ∧
    (p.callback n).2.length = n ∧
    (p.callback n).1.buffer = p.buffer.drop n ∧
    (AudioPlayer.callback { p with buffer := [] } n).2 =
      List.replicate n 0 := by
  refine ⟨callback_out n p, ?_, ?_, ?_⟩
  · rw [callback_out n p]
    simp only [List.length_append, List.length_take, List.length_replicate]
    omega
  · rw [callback_player n p]
  · rw [callback_out n { p with buffer := [] }]
    simp

/-- Claim C6: the ring buffer never exceeds capacity: from any state with
`len ≤ capacity`, both `add_samples` (any input, any PTS) and the device
pull (any requested length) leave `len ≤ capacity` (the channel count,
hence the capacity, is unchanged by both). -/
theorem C6_capacity_invariant (p : AudioPlayer) (samples : List Sample)
    (pts : Int) (n : Nat) (h : p.buffer.length ≤ p.capacity) :
    (p.add_samples samples pts).buffer.length ≤
      (p.add_samples samples pts).capacity ∧
    (p.callback n).1.buffer.length ≤ (p.callback n).1.capacity := by
  constructor
  · have hb := add_samples_buffer p samples pts h
    have hcap : (p.add_samples samples pts).capacity = p.capacity := rfl
    rw [hcap, hb]
    have hcap2 : p.capacity = AUDIO_BUFFER_SIZE * p.channels := rfl
    simp [List.length_take]
    omega
  · have h2 : p.buffer.length ≤ AUDIO_BUFFER_SIZE * p.channels := h
    rw [callback_player n p]
    simp only [AudioPlayer.capacity, List.length_drop]
    omega

/-- Witness for C6 at a concrete player and pull size. -/
theorem C6_capacity_invariant_witness :
    (AudioPlayer.add_samples ⟨[1, 2], 2, 1, ⟨0⟩, 44100⟩ [3] 5).buffer.length
        ≤ (AudioPlayer.add_samples ⟨[1, 2], 2, 1, ⟨0⟩, 44100⟩ [3]
          5).capacity ∧
      ((⟨[1, 2], 2, 1, ⟨0⟩, 44100⟩ : AudioPlayer).callback
          3).1.buffer.length ≤
        ((⟨[1, 2], 2, 1, ⟨0⟩, 44100⟩ : AudioPlayer).callback 3).1.capacity :=
  C6_capacity_invariant ⟨[1, 2], 2, 1, ⟨0⟩, 44100⟩ [3] 5 3 (by decide)

theorem drain_clock (fs : List (List Sample)) :
    ∀ (samples : List Sample) (p : AudioPlayer) (pts : Int),
      (drain_audio_frames (samples :: fs) p pts).state.current_time =
        (pts : ℚ) * p.time_base := by
  induction fs with
  | nil => intro samples p pts; exact add_samples_clock p samples pts
  | cons s2 rest ih =>
    intro samples p pts
    show (drain_audio_frames (s2 :: rest)
      (p.add_samples samples pts) pts).state.current_time = _
    rw [ih s2 (p.add_samples samples pts) pts,
      (add_samples_fields p samples pts).2.1]

/-- Claim C8: `receive_frame_yuv` maps the decoder's receive outcome to
`Ok(false)` (here `.ok none`) exactly when the decoder reports
`EAGAIN` (`Error::Other { errno: EAGAIN }`); every other receive failure
is returned as an error; and the `Ok(false)` case lets the loop
iteration complete with nothing presented and the pacer untouched,
proceeding to the next packet. -/
theorem C8_eagain_is_ok_false (convert : Frame → Except FfError Frame)
    (r : Except FfError Frame) :
    (yuv_result convert r = .ok none ↔ r = .error (.other EAGAIN)) ∧
    (∀ e : FfError, e ≠ .other EAGAIN →
      yuv_result convert (.error e) = .error e) ∧
    (∀ (c : VideoCodec) (d : Decoder) (now : Instant) (pkt : Packet),
      (receive_frame_yuv convert (c.send_packet pkt)).2 = .ok none →
      process_video_packet convert c d now pkt =
        some (.ok ((receive_frame_yuv convert (c.send_packet pkt)).1, d,
          [], now))) := by
  refine ⟨?_, ?_, ?_⟩
  · cases r with
    | ok f =>
      simp only [yuv_result]
      cases convert f with
      | ok g => simp
      | error e => simp
    | error e =>
      cases e with
      | other errno =>
        simp only [yuv_result]
        by_cases he : errno = EAGAIN
        · subst he; simp
        · simp [he]
      | misc t => simp [yuv_result]
  · intro e he
    cases e with
    | other errno =>
      have : errno ≠ EAGAIN := fun hc => he (by rw [hc])
      simp [yuv_result, this]
    | misc t => simp [yuv_result]
  · intro c d now pkt h
    simp only [process_video_packet]
    rw [h]

/-- Witness for C8 at the concrete EAGAIN outcome, a non-EAGAIN error,
and an empty decode queue. -/
theorem C8_eagain_is_ok_false_witness :
    (yuv_result (fun f => .ok f) (.error (.other EAGAIN)) = .ok none ↔
      (.error (.other EAGAIN) : Except FfError Frame) =
        .error (.other EAGAIN)) ∧
    yuv_result (fun f => .ok f) (.error (.misc 0)) = .error (.misc 0) ∧
    process_video_packet (fun f => .ok f) ⟨[]⟩
        ⟨1, 1, none, 2, 0, none, none, 0⟩ 0 ⟨some 0, []⟩ =
      some (.ok
        ((receive_frame_yuv (fun f => .ok f)
            (VideoCodec.send_packet ⟨[]⟩ ⟨some 0, []⟩)).1,
          ⟨1, 1, none, 2, 0, none, none, 0⟩, [], 0)) := by
  have h := C8_eagain_is_ok_false (fun f => .ok f) (.error (.other EAGAIN))
  exact ⟨h.1, h.2.1 (.misc 0) (by decide), h.2.2 ⟨[]⟩
    ⟨1, 1, none, 2, 0, none, none, 0⟩ 0 ⟨some 0, []⟩ rfl⟩

/-- Claim C2 counterexample: a packet for which the decoder produces two
frames (`.ok 10`, `.ok 20`) leaves the second frame undrained after the
Playback Loop's video branch (`if`, not `while`): the codec still holds
`[.ok 20] ≠ []`, while only the first frame was presented. -/
theorem C2_counterexample :
    (process_video_packet (fun f => .ok f) ⟨[]⟩
        ⟨1, 1, none, 2, 0, none, none, 0⟩ 0
        ⟨some 0, [.ok 10, .ok 20]⟩).map
        (fun r => r.map (fun q => (q.1.pending, q.2.2.1))) =
      some (.ok ([.ok 20], [10])) ∧
    ([.ok 20] : List (Except FfError Frame)) ≠ [] := by
  constructor
  · rfl
  · decide

/-- Claim C2 (amended): the video branch makes a single receive attempt
per packet, so at most one decoded frame is drained: a successful
iteration either drains nothing (leaving the pacer untouched and
presenting nothing) or pops exactly the head decode outcome; when that
head is a frame it is pixel-converted, evaluated by the Pacer at the
packet's PTS, and presented exactly when the Pacer says "display now". -/
theorem C2_at_most_one_frame_per_packet
    (convert : Frame → Except FfError Frame) (c : VideoCodec) (d : Decoder)
    (now : Instant) (pkt : Packet) (c1 : VideoCodec) (d1 : Decoder)
    (shown : List Frame) (ret : Instant)
    (h : process_video_packet convert c d now pkt =
      some (.ok (c1, d1, shown, ret))) :
    (shown = [] ∧ d1 = d ∧ ret = now ∧
      (c1.pending = (c.send_packet pkt).pending ∨
        (c.send_packet pkt).pending =
          .error (.other EAGAIN) :: c1.pending)) ∨
    (∃ f g, (c.send_packet pkt).pending = .ok f :: c1.pending ∧
      convert f = .ok g ∧
      ∃ disp, d.should_display_frame (pkt.pts.getD 0) now =
          some (disp, d1, ret) ∧
        shown = if disp then [g] else []) := by
  simp only [process_video_packet, receive_frame_yuv,
    VideoCodec.receive_frame] at h
  cases hq : (c.send_packet pkt).pending with
  | nil =>
    rw [hq] at h
    simp only [yuv_result, EAGAIN, if_pos] at h
    simp only [Option.some.injEq, Except.ok.injEq, Prod.mk.injEq] at h
    obtain ⟨hc1, hd1, hshown, hret⟩ := h
    subst hc1; subst hd1; subst hshown; subst hret
    exact Or.inl ⟨rfl, rfl, rfl, Or.inl hq⟩
  | cons r rest =>
    rw [hq] at h
    cases r with
    | ok f =>
      simp only [yuv_result] at h
      cases hc : convert f with
      | ok g =>
        rw [hc] at h
        cases hp : d.should_display_frame (pkt.pts.getD 0) now with
        | none => rw [hp] at h; simp at h
        | some res =>
          obtain ⟨disp, d1', ret'⟩ := res
          rw [hp] at h
          simp only [Option.some.injEq, Except.ok.injEq,
            Prod.mk.injEq] at h
          obtain ⟨hc1, hd1, hshown, hret⟩ := h
          subst hc1; subst hd1; subst hret
          exact Or.inr ⟨f, g, rfl, hc, disp, rfl, hshown.symm⟩
      | error e =>
        rw [hc] at h
        simp at h
    | error e =>
      cases e with
      | other errno =>
        simp only [yuv_result] at h
        by_cases he : errno = EAGAIN
        · subst he
          rw [if_pos rfl] at h
          simp only [Option.some.injEq, Except.ok.injEq,
            Prod.mk.injEq] at h
          obtain ⟨hc1, hd1, hshown, hret⟩ := h
          subst hc1; subst hd1; subst hshown; subst hret
          exact Or.inl ⟨rfl, rfl, rfl, Or.inr rfl⟩
        · rw [if_neg he] at h
          simp at h
      | misc t =>
        simp only [yuv_result] at h
        simp at h

/-- Witness for the amended C2 at a one-frame packet fed to a fresh
pacer. -/
theorem C2_at_most_one_frame_per_packet_witness :
    (([10] : List Frame) = [] ∧
      (⟨1, 1, some 0, 2, 0, some 0, some 2, 0⟩ : Decoder) =
        ⟨1, 1, none, 2, 0, none, none, 0⟩ ∧
      (0 : Instant) = 0 ∧
      ((⟨[]⟩ : VideoCodec).pending =
          (VideoCodec.send_packet ⟨[]⟩ ⟨some 0, [.ok 10]⟩).pending ∨
        (VideoCodec.send_packet ⟨[]⟩ ⟨some 0, [.ok 10]⟩).pending =
          .error (.other EAGAIN) :: (⟨[]⟩ : VideoCodec).pending)) ∨
    (∃ f g,
      (VideoCodec.send_packet ⟨[]⟩ ⟨some 0, [.ok 10]⟩).pending =
        .ok f :: (⟨[]⟩ : VideoCodec).pending ∧
      (fun x => (.ok x : Except FfError Frame)) f = .ok g ∧
      ∃ disp,
        Decoder.should_display_frame ⟨1, 1, none, 2, 0, none, none, 0⟩
            ((⟨some 0, [.ok 10]⟩ : Packet).pts.getD 0) 0 =
          some (disp, ⟨1, 1, some 0, 2, 0, some 0, some 2, 0⟩, 0) ∧
        ([10] : List Frame) = if disp then [g] else []) :=
  C2_at_most_one_frame_per_packet (fun x => .ok x) ⟨[]⟩
    ⟨1, 1, none, 2, 0, none, none, 0⟩ 0 ⟨some 0, [.ok 10]⟩ ⟨[]⟩
    ⟨1, 1, some 0, 2, 0, some 0, some 2, 0⟩ [10] 0 rfl

/-- Claim C10: a packet without a PTS is processed as if its PTS were 0:
the video branch paces with `packet.pts().unwrap_or(0) = 0`, the audio
branch (here with at least one decoded frame) sets the Audio Clock to
`0 * time_base = 0`, and both branches are total on a missing PTS. -/
theorem C10_missing_pts_defaults_to_zero
    (convert : Frame → Except FfError Frame) (c : VideoCodec) (d : Decoder)
    (now : Instant) (vframes : List (Except FfError Frame))
    (p : AudioPlayer) (f : List Sample) (fs : List (List Sample)) :
    process_video_packet convert c d now ⟨none, vframes⟩ =
      process_video_packet convert c d now ⟨some 0, vframes⟩ ∧
    process_audio_packet ⟨[]⟩ p none (f :: fs) =
      process_audio_packet ⟨[]⟩ p (some 0) (f :: fs) ∧
    (process_audio_packet ⟨[]⟩ p none (f :: fs)).2.state.current_time =
      0 := by
  refine ⟨rfl, rfl, ?_⟩
  calc (process_audio_packet ⟨[]⟩ p none (f :: fs)).2.state.current_time
      = (drain_audio_frames (f :: fs) p 0).state.current_time := rfl
    _ = ((0 : Int) : ℚ) * p.time_base := drain_clock fs f p 0
    _ = 0 := by norm_num

end RustMedia
